import Mathlib

/-!
# Verification of the uscert-manager certificate store and reconciliation engine

A shallow embedding of `uscert_manager/store.py` (the SQLite-backed certificate
store, including its SHA-256 domain fingerprint) and `uscert_manager/manager.py`
(the prune / sync / renew reconciliation passes, configuration checking, hook
execution and the daily renewal scheduler).

Conventions of the embedding:
* The `certs` SQLite table is a list of rows (`CertRecord`); `name` is the
  primary key, so well-formed stores have pairwise distinct names.
* Timestamps are naive local clock readings measured in microseconds since an
  epoch midnight, mirroring `datetime.datetime` arithmetic (`timedelta(days=d)`
  is `d * 86400000000` microseconds).  `Python.isoformat` renders a reading the
  way `datetime.isoformat()` does; `Sqlite.datetimeStr` renders it the way
  SQLite's `datetime()` function does.  The store keeps `expiry_date` as the
  rendered string and compares strings, exactly like the SQL queries do.
* Providers, hook scripts and `pip` are external processes; they are modelled
  as record-of-functions environments whose results (`Except`) stand for
  normal return versus raised exception.
* Each manager operation returns the mutated store, the list of externally
  observable events it performed in order, and its outcome (`Except`), where
  `.error` stands for an exception propagating out of the operation.
-/

namespace UsCert

/-! ## SHA-256 (`hashlib.sha256(...).hexdigest()`) -/

namespace Sha256

/-- Truncate to a 32-bit word. -/
def w32 (x : Nat) : Nat := x % 4294967296

def rotr (n x : Nat) : Nat := w32 ((x >>> n) ||| (x <<< (32 - n)))

def bsig0 (x : Nat) : Nat := rotr 2 x ^^^ rotr 13 x ^^^ rotr 22 x

def bsig1 (x : Nat) : Nat := rotr 6 x ^^^ rotr 11 x ^^^ rotr 25 x

def ssig0 (x : Nat) : Nat := rotr 7 x ^^^ rotr 18 x ^^^ (x >>> 3)

def ssig1 (x : Nat) : Nat := rotr 17 x ^^^ rotr 19 x ^^^ (x >>> 10)

def ch (x y z : Nat) : Nat := (x &&& y) ^^^ ((x ^^^ 4294967295) &&& z)

def maj (x y z : Nat) : Nat := (x &&& y) ^^^ (x &&& z) ^^^ (y &&& z)

def K : List Nat :=
  [1116352408, 1899447441, 3049323471, 3921009573, 961987163, 1508970993,
   2453635748, 2870763221, 3624381080, 310598401, 607225278, 1426881987,
   1925078388, 2162078206, 2614888103, 3248222580, 3835390401, 4022224774,
   264347078, 604807628, 770255983, 1249150122, 1555081692, 1996064986,
   2554220882, 2821834349, 2952996808, 3210313671, 3336571891, 3584528711,
   113926993, 338241895, 666307205, 773529912, 1294757372, 1396182291,
   1695183700, 1986661051, 2177026350, 2456956037, 2730485921, 2820302411,
   3259730800, 3345764771, 3516065817, 3600352804, 4094571909, 275423344,
   430227734, 506948616, 659060556, 883997877, 958139571, 1322822218,
   1537002063, 1747873779, 1955562222, 2024104815, 2227730452, 2361852424,
   2428436474, 2756734187, 3204031479, 3329325298]

def H0 : List Nat :=
  [1779033703, 3144134277, 1013904242, 2773480762,
   1359893119, 2600822924, 528734635, 1541459225]

/-- Extend a 16-word block towards the 64-word message schedule; `n` counts the
words still to be generated (the compression step calls this with 48). -/
def extendW : Nat → Array Nat → Array Nat
  | 0, w => w
  | n + 1, w =>
    let s := w.size
    extendW n (w.push (w32 (ssig1 (w.getD (s - 2) 0) + w.getD (s - 7) 0 +
      ssig0 (w.getD (s - 15) 0) + w.getD (s - 16) 0)))

/-- The eight working variables of the compression loop. -/
structure Hs where
  a : Nat
  b : Nat
  c : Nat
  d : Nat
  e : Nat
  f : Nat
  g : Nat
  h : Nat

def round (kw : Nat × Nat) (s : Hs) : Hs :=
  let t1 := w32 (s.h + bsig1 s.e + ch s.e s.f s.g + kw.1 + kw.2)
  let t2 := w32 (bsig0 s.a + maj s.a s.b s.c)
  ⟨w32 (t1 + t2), s.a, s.b, s.c, w32 (s.d + t1), s.e, s.f, s.g⟩

def compress (hv : List Nat) (block : List Nat) : List Nat :=
  let ws := (extendW 48 block.toArray).toList
  let init : Hs := ⟨hv.getD 0 0, hv.getD 1 0, hv.getD 2 0, hv.getD 3 0,
                    hv.getD 4 0, hv.getD 5 0, hv.getD 6 0, hv.getD 7 0⟩
  let f := (K.zip ws).foldl (fun s kw => round kw s) init
  [w32 (hv.getD 0 0 + f.a), w32 (hv.getD 1 0 + f.b), w32 (hv.getD 2 0 + f.c),
   w32 (hv.getD 3 0 + f.d), w32 (hv.getD 4 0 + f.e), w32 (hv.getD 5 0 + f.f),
   w32 (hv.getD 6 0 + f.g), w32 (hv.getD 7 0 + f.h)]

/-- Big-endian split of a number into `n` bytes. -/
def beBytes : Nat → Nat → List Nat
  | 0, _ => []
  | n + 1, x => ((x >>> (8 * n)) &&& 255) :: beBytes n x

/-- SHA-256 padding: append `0x80`, zeros, then the 64-bit big-endian bit
length, reaching a multiple of 64 bytes. -/
def padMsg (msg : List Nat) : List Nat :=
  let L := msg.length
  let zeros := (64 - (L + 9) % 64) % 64
  msg ++ [128] ++ List.replicate zeros 0 ++ beBytes 8 (L * 8)

/-- Group a byte list into big-endian 32-bit words. -/
def toWords : List Nat → List Nat
  | b0 :: b1 :: b2 :: b3 :: rest => (((b0 * 256 + b1) * 256 + b2) * 256 + b3) :: toWords rest
  | _ => []

/-- Split a word list into blocks of 16; the first argument is fuel (the list
length suffices). -/
def chunksGo : Nat → List Nat → List (List Nat)
  | 0, _ => []
  | _, [] => []
  | n + 1, ws => ws.take 16 :: chunksGo n (ws.drop 16)

def chunks16 (ws : List Nat) : List (List Nat) := chunksGo ws.length ws

def hexChar (n : Nat) : Char := if n < 10 then Char.ofNat (48 + n) else Char.ofNat (87 + n)

def hexWord (w : Nat) : List Char :=
  [hexChar ((w >>> 28) &&& 15), hexChar ((w >>> 24) &&& 15), hexChar ((w >>> 20) &&& 15),
   hexChar ((w >>> 16) &&& 15), hexChar ((w >>> 12) &&& 15), hexChar ((w >>> 8) &&& 15),
   hexChar ((w >>> 4) &&& 15), hexChar (w &&& 15)]

/-- UTF-8 encoding of one character (what `str.encode()` does per code point). -/
def utf8Encode (c : Char) : List Nat :=
  let n := c.toNat
  if n < 128 then [n]
  else if n < 2048 then [192 ||| (n >>> 6), 128 ||| (n &&& 63)]
  else if n < 65536 then
    [224 ||| (n >>> 12), 128 ||| ((n >>> 6) &&& 63), 128 ||| (n &&& 63)]
  else
    [240 ||| (n >>> 18), 128 ||| ((n >>> 12) &&& 63), 128 ||| ((n >>> 6) &&& 63),
     128 ||| (n &&& 63)]

/-- `s.encode()`: the UTF-8 bytes of a string. -/
def strBytes (s : String) : List Nat :=
  s.data.foldr (fun c acc => utf8Encode c ++ acc) []

def sha256Bytes (msg : List Nat) : List Nat :=
  let blocks := chunks16 (toWords (padMsg msg))
  blocks.foldl compress H0

/-- `hashlib.sha256(s.encode()).hexdigest()`. -/
def sha256hex (s : String) : String :=
  ⟨(sha256Bytes (strBytes s)).foldr (fun w acc => hexWord w ++ acc) []⟩

end Sha256

/-! ## Clock readings and their textual renderings

`datetime.datetime.now()` readings are naive local timestamps; we measure them
in microseconds since an epoch midnight (1970-01-01 00:00:00).  `timedelta`
arithmetic is plain addition on microseconds. -/

def microsPerDay : Nat := 86400000000

/-- Civil date `(year, month, day)` from a day count since 1970-01-01
(Gregorian calendar, valid for nonnegative day counts). -/
def civilFromDays (z0 : Nat) : Nat × Nat × Nat :=
  let z := z0 + 719468
  let era := z / 146097
  let doe := z % 146097
  let yoe := (doe - doe / 1460 + doe / 36524 - doe / 146096) / 365
  let y := yoe + era * 400
  let doy := doe - (365 * yoe + yoe / 4 - yoe / 100)
  let mp := (5 * doy + 2) / 153
  let d := doy - (153 * mp + 2) / 5 + 1
  let m := if mp < 10 then mp + 3 else mp - 9
  (if m ≤ 2 then y + 1 else y, m, d)

def pad2 (n : Nat) : String := if n < 10 then "0" ++ toString n else toString n

def pad4 (n : Nat) : String :=
  if n < 10 then "000" ++ toString n
  else if n < 100 then "00" ++ toString n
  else if n < 1000 then "0" ++ toString n
  else toString n

def pad6 (n : Nat) : String :=
  if n < 10 then "00000" ++ toString n
  else if n < 100 then "0000" ++ toString n
  else if n < 1000 then "000" ++ toString n
  else if n < 10000 then "00" ++ toString n
  else if n < 100000 then "0" ++ toString n
  else toString n

namespace Python

/-- `datetime.isoformat()`: `YYYY-MM-DDTHH:MM:SS[.ffffff]`, with a `T`
separator, and the microsecond part omitted when it is zero. -/
def isoformat (t : Nat) : String :=
  let ymd := civilFromDays (t / microsPerDay)
  let rem := t % microsPerDay
  let hh := rem / 3600000000
  let mm := rem / 60000000 % 60
  let ss := rem / 1000000 % 60
  let us := rem % 1000000
  pad4 ymd.1 ++ "-" ++ pad2 ymd.2.1 ++ "-" ++ pad2 ymd.2.2 ++ "T" ++
    pad2 hh ++ ":" ++ pad2 mm ++ ":" ++ pad2 ss ++
    (if us = 0 then "" else "." ++ pad6 us)

end Python

namespace Sqlite

/-- SQLite's `datetime(...)` text: `YYYY-MM-DD HH:MM:SS`, with a space
separator and whole seconds.  `datetime("now", "+N days")` is
`datetimeStr (now + N * microsPerDay)`. -/
def datetimeStr (t : Nat) : String :=
  let ymd := civilFromDays (t / microsPerDay)
  let rem := t % microsPerDay
  let hh := rem / 3600000000
  let mm := rem / 60000000 % 60
  let ss := rem / 1000000 % 60
  pad4 ymd.1 ++ "-" ++ pad2 ymd.2.1 ++ "-" ++ pad2 ymd.2.2 ++ " " ++
    pad2 hh ++ ":" ++ pad2 mm ++ ":" ++ pad2 ss

end Sqlite


/-! ## String comparison and `sorted`

CPython compares `str` values code point by code point, lexicographically;
SQLite's default BINARY collation compares the UTF-8 bytes with `memcmp`,
which orders identically (UTF-8 is order preserving).  We model both with one
executable comparison on the character lists. -/

def charListLtb : List Char → List Char → Bool
  | [], [] => false
  | [], _ :: _ => true
  | _ :: _, [] => false
  | a :: as, b :: bs => if a < b then true else if b < a then false else charListLtb as bs

/-- CPython `str <` and SQLite BINARY `<`. -/
def pyLtb (a b : String) : Bool := charListLtb a.data b.data

/-- CPython `str <=`. -/
def pyLeb (a b : String) : Bool := !(pyLtb b a)

/-- `pyLeb` as a relation, for use with the sorting lemmas. -/
def pyLe (a b : String) : Prop := pyLeb a b = true

instance : DecidableRel pyLe := fun a b => by unfold pyLe; infer_instance

/-- Python's `sorted` on strings: the sorted permutation of the list.  (On a
total, antisymmetric order every sorting algorithm returns the same list, so
we may take insertion sort.) -/
def pySorted (l : List String) : List String := List.insertionSort pyLe l

/-! ## The certificate store (`store.py`)

A row of the `certs` table (`name` is the primary key). -/

structure CertRecord where
  name : String
  provider : String
  domains : List String
  expiry_date : String
  checksum : String
deriving DecidableEq, Repr

/-- The `certs` table: its rows in rowid order. -/
abbrev CertsStore := List CertRecord

namespace CertsStore

def CACHE_MISS : String := "MISS"

def CACHE_HIT : String := "HIT"

/-- `hashlib.sha256(''.join(sorted(domains)).encode()).hexdigest()` — the
domain-set fingerprint computed in `replace` and `check`. -/
def checksum_of (domains : List String) : String :=
  Sha256.sha256hex (String.join (pySorted domains))

/-- `REPLACE INTO certs ...`: delete any row with this primary key, insert the
new row (which therefore takes the highest rowid). -/
def replace (st : CertsStore) (name : String) (provider : String) (domains : List String)
    (expiry_date : String) : CertsStore :=
  st.filter (fun r => r.name ≠ name) ++
    [{ name := name, provider := provider, domains := domains,
       expiry_date := expiry_date, checksum := checksum_of domains }]

/-- `DELETE FROM certs WHERE name = ? LIMIT 1`: delete the first row with this
name (the primary key admits at most one). -/
def remove : CertsStore → String → CertsStore
  | [], _ => []
  | r :: rest, name => if r.name = name then rest else r :: remove rest name

/-- `UPDATE certs SET expiry_date = ? WHERE name = ?`. -/
def update (st : CertsStore) (name : String) (expiry_date : String) : CertsStore :=
  st.map (fun r => if r.name = name then { r with expiry_date := expiry_date } else r)

/-- `SELECT * FROM certs WHERE name = ?` with `fetchone`: the first row with
this name (the primary key admits at most one). -/
def get : CertsStore → String → Option CertRecord
  | [], _ => none
  | r :: rest, name => if r.name = name then some r else get rest name

/-- `SELECT * FROM certs`. -/
def get_all (st : CertsStore) : List CertRecord := st

/-- `SELECT * FROM certs WHERE expiry_date < datetime("now", "+{days} days")`:
a lexicographic text comparison against SQLite's datetime rendering, where
`now` is the database's clock reading. -/
def get_due_certs (st : CertsStore) (days : Nat) (now : Nat) : List CertRecord :=
  st.filter (fun r => pyLtb r.expiry_date (Sqlite.datetimeStr (now + days * microsPerDay)))

/-- `CertsStore.check`: `MISS` when no row exists, otherwise compare the stored
checksum with the checksum of the given members. -/
def check (st : CertsStore) (name : String) (members : List String) : String :=
  match get st name with
  | none => CACHE_MISS
  | some cert => if cert.checksum = checksum_of members then CACHE_HIT else CACHE_MISS

end CertsStore


/-! ## The manager (`manager.py`)

External collaborators (providers, hook scripts, `pip`) are processes; they
are modelled as environments of functions.  An `Except.error` result stands
for an exception raised by the collaborator call. -/

/-- One parsed config section: the `provider` key and the comma-split
`domains` key (the further free-form options only flow into provider calls,
which are abstract here, so they are not carried). -/
structure GroupConfig where
  provider : String
  domains : List String
deriving DecidableEq, Repr

/-- The provider capability contract (`CertbotProvider` / `OpenSslProvider`):
`generate_cert` and `renew_cert` return the certificate lifetime in days. -/
structure ProviderImpl where
  config_check : GroupConfig → Except String Unit
  get_required_packages : GroupConfig → List String
  generate_cert : String → GroupConfig → Except String Nat
  renew_cert : String → Except String Nat
  revoke_cert : String → Except String Unit

/-- The hooks directory and the `run-parts` processes: whether
`<hooks_dir>/<hook>` exists, and the `(returncode, stderr)` of
`run-parts <dir> --arg <name>`. -/
structure HooksEnv where
  hook_dir_exists : String → Bool
  run_parts : String → String → Nat × String

/-- The `pip install` collaborator. -/
structure PipEnv where
  install : String → Except String Unit

/-- A constructed `UsCertManager`: its provider mapping, its environments and
its parsed config (an insertion-ordered dict, keys distinct). -/
structure Manager where
  cert_providers : List (String × ProviderImpl)
  hooks : HooksEnv
  pip : PipEnv
  config : List (String × GroupConfig)

/-- Python dict lookup (`d[k]` / `k in d`), keys being unique. -/
def lookup? {α : Type} : List (String × α) → String → Option α
  | [], _ => none
  | p :: rest, k => if p.1 = k then some p.2 else lookup? rest k

/-- The externally observable actions of a pass, in execution order. -/
inductive Event where
  | providerGenerate (name provider : String)
  | providerRenew (name provider : String)
  | providerRevoke (name provider : String)
  | storeReplace (name provider : String) (domains : List String) (expiry_date : String)
  | storeUpdate (name expiry_date : String)
  | storeRemove (name : String)
  | hookRun (hook name : String)
deriving DecidableEq, Repr

namespace UsCertManager

/-- `_run_hook`: no-op when the hook directory does not exist; otherwise run
`run-parts` and raise `UsCertManagerError` on a nonzero exit.  The event marks
the hook step being performed for the lifecycle action. -/
def run_hook (m : Manager) (hook : String) (name : String) :
    List Event × Except String Unit :=
  if m.hooks.hook_dir_exists hook = false then ([], .ok ())
  else if (m.hooks.run_parts hook name).1 ≠ 0 then
    ([Event.hookRun hook name],
      .error ("Error running hook " ++ hook ++ ": " ++ (m.hooks.run_parts hook name).2))
  else ([Event.hookRun hook name], .ok ())

/-- `_generate_cert`: provider generate, then `CertsStore.replace` with
`expiry = now + lifetime days`, then the `post_cert_gen` hook. -/
def generate_cert (m : Manager) (now : Nat) (st : CertsStore) (name provider : String)
    (config : GroupConfig) : CertsStore × List Event × Except String Unit :=
  match lookup? m.cert_providers provider with
  | none => (st, [], .error ("KeyError: " ++ provider))
  | some prov =>
    match prov.generate_cert name config with
    | .error e => (st, [Event.providerGenerate name provider], .error e)
    | .ok lifetime =>
      let expiry := Python.isoformat (now + lifetime * microsPerDay)
      let st2 := CertsStore.replace st name provider config.domains expiry
      let hr := run_hook m "post_cert_gen" name
      (st2, Event.providerGenerate name provider ::
        Event.storeReplace name provider config.domains expiry :: hr.1, hr.2)

/-- `_renew_cert`: provider renew, then `CertsStore.update` with
`expiry = now + lifetime days`, then the `post_cert_gen` hook. -/
def renew_cert (m : Manager) (now : Nat) (st : CertsStore) (name provider : String) :
    CertsStore × List Event × Except String Unit :=
  match lookup? m.cert_providers provider with
  | none => (st, [], .error ("KeyError: " ++ provider))
  | some prov =>
    match prov.renew_cert name with
    | .error e => (st, [Event.providerRenew name provider], .error e)
    | .ok lifetime =>
      let expiry := Python.isoformat (now + lifetime * microsPerDay)
      let st2 := CertsStore.update st name expiry
      let hr := run_hook m "post_cert_gen" name
      (st2, Event.providerRenew name provider :: Event.storeUpdate name expiry :: hr.1, hr.2)

/-- `_revoke_cert`: provider revoke, then `CertsStore.remove`, then the
`post_cert_revoke` hook. -/
def revoke_cert (m : Manager) (st : CertsStore) (name provider : String) :
    CertsStore × List Event × Except String Unit :=
  match lookup? m.cert_providers provider with
  | none => (st, [], .error ("KeyError: " ++ provider))
  | some prov =>
    match prov.revoke_cert name with
    | .error e => (st, [Event.providerRevoke name provider], .error e)
    | .ok _ =>
      let st2 := CertsStore.remove st name
      let hr := run_hook m "post_cert_revoke" name
      (st2, Event.providerRevoke name provider :: Event.storeRemove name :: hr.1, hr.2)

/-- One iteration of the prune loop of `_sync_certs`: skip records whose name
is still configured, otherwise `_revoke_cert` inside `try/except` (the raised
exception is logged and swallowed). -/
def pruneStep (m : Manager) (acc : CertsStore × List Event) (cert : CertRecord) :
    CertsStore × List Event :=
  if (lookup? m.config cert.name).isSome then acc
  else
    let r := revoke_cert m acc.1 cert.name cert.provider
    (r.1, acc.2 ++ r.2.1)

/-- The prune loop of `_sync_certs` over the `get_all` snapshot. -/
def pruneLoop (m : Manager) : List CertRecord → CertsStore × List Event →
    CertsStore × List Event
  | [], acc => acc
  | cert :: rest, acc => pruneLoop m rest (pruneStep m acc cert)

/-- One iteration of the generation loop of `_sync_certs`: check freshness,
and on `CACHE_MISS` run `_generate_cert` inside `try/except`. -/
def syncStep (m : Manager) (now : Nat) (acc : CertsStore × List Event)
    (entry : String × GroupConfig) : CertsStore × List Event :=
  if CertsStore.check acc.1 entry.1 entry.2.domains = CertsStore.CACHE_MISS then
    let r := generate_cert m now acc.1 entry.1 entry.2.provider entry.2
    (r.1, acc.2 ++ r.2.1)
  else acc

/-- The generation loop of `_sync_certs` over `self._config.items()`. -/
def syncLoop (m : Manager) (now : Nat) : List (String × GroupConfig) →
    CertsStore × List Event → CertsStore × List Event
  | [], acc => acc
  | entry :: rest, acc => syncLoop m now rest (syncStep m now acc entry)

/-- `_sync_certs`: the full-sync pass — prune the records no longer in config,
then ensure every configured group has a fresh certificate.  `now` is the
pass's clock reading. -/
def sync_certs (m : Manager) (now : Nat) (st : CertsStore) : CertsStore × List Event :=
  syncLoop m now m.config (pruneLoop m (CertsStore.get_all st) (st, []))

/-- One iteration of `_renew_certs`: `_renew_cert` inside `try/except`. -/
def renewStep (m : Manager) (now : Nat) (acc : CertsStore × List Event)
    (cert : CertRecord) : CertsStore × List Event :=
  let r := renew_cert m now acc.1 cert.name cert.provider
  (r.1, acc.2 ++ r.2.1)

/-- The loop of `_renew_certs` over the due-certificates snapshot. -/
def renewLoop (m : Manager) (now : Nat) : List CertRecord → CertsStore × List Event →
    CertsStore × List Event
  | [], acc => acc
  | cert :: rest, acc => renewLoop m now rest (renewStep m now acc cert)

/-- `_renew_certs`: the renew pass over `get_due_certs(30)`. -/
def renew_certs (m : Manager) (now : Nat) (st : CertsStore) : CertsStore × List Event :=
  renewLoop m now (CertsStore.get_due_certs st 30 now) (st, [])

/-- `_config_check` over the config sections: raise `UsCertManagerConfigError`
on an unknown provider id, then let the provider validate its own options. -/
def config_check_go (m : Manager) : List (String × GroupConfig) → Except String Unit
  | [] => .ok ()
  | (_, config) :: rest =>
    match lookup? m.cert_providers config.provider with
    | none => .error ("Provider " ++ config.provider ++ " not found")
    | some prov =>
      match prov.config_check config with
      | .error e => .error e
      | .ok _ => config_check_go m rest

/-- `_config_check`. -/
def config_check (m : Manager) : Except String Unit := config_check_go m m.config

/-- The package-collection loop of `_ensure_packages` (a `KeyError` on the
provider mapping would propagate, but `_config_check` runs first). -/
def collect_packages (m : Manager) : List (String × GroupConfig) → Except String (List String)
  | [] => .ok []
  | (_, config) :: rest =>
    match lookup? m.cert_providers config.provider with
    | none => .error ("KeyError: " ++ config.provider)
    | some prov =>
      match collect_packages m rest with
      | .error e => .error e
      | .ok pks => .ok (prov.get_required_packages config ++ pks)

def install_packages (m : Manager) : List String → Except String Unit
  | [] => .ok ()
  | p :: rest =>
    match m.pip.install p with
    | .error e => .error e
    | .ok _ => install_packages m rest

/-- `_ensure_packages`: gather the providers' required packages (a Python
`set`, determinized here by order-preserving deduplication) and `pip install`
each. -/
def ensure_packages (m : Manager) : Except String Unit :=
  match collect_packages m m.config with
  | .error e => .error e
  | .ok pks => install_packages m pks.eraseDups

/-- `run` up to entering the `_run_forever` scheduler loop: `_config_check`,
`_ensure_packages`, then the startup full-sync pass.  An error here is an
exception aborting the whole run; `_sync_certs` itself never raises. -/
def run_startup (m : Manager) (now : Nat) (st : CertsStore) :
    CertsStore × List Event × Except String Unit :=
  match config_check m with
  | .error e => (st, [], .error e)
  | .ok _ =>
    match ensure_packages m with
    | .error e => (st, [], .error e)
    | .ok _ =>
      let r := sync_certs m now st
      (r.1, r.2, .ok ())

/-! ### The scheduler loop (`_renew_certs_task`) -/

/-- 02:00 as microseconds into a day. -/
def microsAt0200 : Nat := 7200000000

/-- The sleep target computed after a renew pass: today's 02:00, pushed to
tomorrow when it has already passed (`if now > next_run`). -/
def next_run (now : Nat) : Nat :=
  let r := now / microsPerDay * microsPerDay + microsAt0200
  if r < now then r + microsPerDay else r

/-- The clock readings at which `_renew_certs` runs inside
`_renew_certs_task`, idealizing the renew pass as instantaneous and the sleep
as waking exactly at the computed target: the loop body runs the pass first
and computes the sleep afterwards, so the pass at index `0` happens at task
start, and the pass at index `n + 1` at the target computed from index `n`. -/
def renew_pass_times (start : Nat) : Nat → Nat
  | 0 => start
  | n + 1 => next_run (renew_pass_times start n)

/-- Modelled from the spec: "the next fixed daily trigger time (02:00 local
time); if that time has already passed today, the next trigger is the same
time tomorrow". -/
def spec_next_trigger (now : Nat) : Nat :=
  if now ≤ now / microsPerDay * microsPerDay + microsAt0200
  then now / microsPerDay * microsPerDay + microsAt0200
  else now / microsPerDay * microsPerDay + microsAt0200 + microsPerDay

end UsCertManager


/-! ## Test fixtures

Concrete environments used to instantiate the theorems below on closed
inputs. -/

/-- A provider whose every operation succeeds, generating and renewing with a
fixed lifetime in days. -/
def okProv (lifetime : Nat) : ProviderImpl where
  config_check := fun _ => .ok ()
  get_required_packages := fun _ => []
  generate_cert := fun _ _ => .ok lifetime
  renew_cert := fun _ => .ok lifetime
  revoke_cert := fun _ => .ok ()

/-- A provider whose every operation raises. -/
def failProv : ProviderImpl where
  config_check := fun _ => .ok ()
  get_required_packages := fun _ => []
  generate_cert := fun _ _ => .error "generate failed"
  renew_cert := fun _ => .error "renew failed"
  revoke_cert := fun _ => .error "revoke failed"

/-- Hook directories exist and every `run-parts` exits 0. -/
def hooksOn : HooksEnv where
  hook_dir_exists := fun _ => true
  run_parts := fun _ _ => (0, "")

/-- Hook directories exist and every `run-parts` exits 1. -/
def hooksFail : HooksEnv where
  hook_dir_exists := fun _ => true
  run_parts := fun _ _ => (1, "hook stderr")

/-- No hook directory exists. -/
def hooksNoDir : HooksEnv where
  hook_dir_exists := fun _ => false
  run_parts := fun _ _ => (0, "")

/-- `pip install` always succeeds. -/
def pipOk : PipEnv where
  install := fun _ => .ok ()

/-! ## Order properties of the string comparison -/

theorem charListLtb_asymm : ∀ {x y : List Char}, charListLtb x y = true → charListLtb y x = false
  | [], [], h => by simp [charListLtb] at h
  | [], _ :: _, _ => by simp [charListLtb]
  | _ :: _, [], h => by simp [charListLtb] at h
  | a :: as, b :: bs, h => by
    simp only [charListLtb] at h ⊢
    by_cases hab : a < b
    · simp [hab, lt_asymm hab]
    · by_cases hba : b < a
      · simp [hab, hba] at h
      · simp only [hab, hba, if_false] at h ⊢
        exact charListLtb_asymm h

theorem charListLtb_conn : ∀ {x y : List Char},
    charListLtb x y = false → charListLtb y x = false → x = y
  | [], [], _, _ => rfl
  | [], _ :: _, h, _ => by simp [charListLtb] at h
  | _ :: _, [], _, h => by simp [charListLtb] at h
  | a :: as, b :: bs, h1, h2 => by
    simp only [charListLtb] at h1 h2
    by_cases hab : a < b
    · simp [hab] at h1
    · by_cases hba : b < a
      · simp [hba, hab] at h2
      · simp only [hab, hba, if_false] at h1 h2
        have : a = b := le_antisymm (not_lt.mp hba) (not_lt.mp hab)
        rw [this, charListLtb_conn h1 h2]

theorem charListLtb_le_trans : ∀ (x y z : List Char),
    charListLtb y x = false → charListLtb z y = false → charListLtb z x = false := by
  intro x
  induction x with
  | nil =>
    intro y z h1 h2
    cases z <;> simp [charListLtb]
  | cons a as ih =>
    intro y z h1 h2
    cases y with
    | nil => simp [charListLtb] at h1
    | cons b bs =>
      cases z with
      | nil => simp [charListLtb] at h2
      | cons c cs =>
        simp only [charListLtb] at h1 h2 ⊢
        by_cases hba : b < a
        · simp [hba] at h1
        · by_cases hcb : c < b
          · simp [hcb] at h2
          · have hab : a ≤ b := not_lt.mp hba
            have hbc : b ≤ c := not_lt.mp hcb
            have hca : ¬ c < a := not_lt.mpr (hab.trans hbc)
            simp only [hba, hcb, if_false] at h1 h2
            simp only [hca, if_false]
            by_cases hac : a < c
            · simp [hac]
            · have hca2 : c ≤ a := not_lt.mp hac
              have hacr : a = c := le_antisymm (hab.trans hbc) hca2
              subst hacr
              have hb : a = b := le_antisymm hab (hbc.trans hca2)
              subst hb
              simp only [lt_irrefl, if_false] at h1 h2 ⊢
              exact ih bs cs h1 h2

instance : IsTotal String pyLe where
  total a b := by
    unfold pyLe pyLeb pyLtb
    rcases h : charListLtb b.data a.data with h' | h'
    · exact Or.inl (by simp [h])
    · exact Or.inr (by simp [charListLtb_asymm h])

instance : IsTrans String pyLe where
  trans a b c h1 h2 := by
    unfold pyLe pyLeb pyLtb at h1 h2 ⊢
    simp only [Bool.not_eq_true'] at h1 h2 ⊢
    exact charListLtb_le_trans _ _ _ h1 h2

instance : IsAntisymm String pyLe where
  antisymm a b h1 h2 := by
    unfold pyLe pyLeb pyLtb at h1 h2
    simp only [Bool.not_eq_true'] at h1 h2
    have : a.data = b.data := charListLtb_conn h2 h1
    cases a; cases b; exact congrArg String.mk this

/-- `sorted` is invariant under permutation of its input: both sorts are
sorted permutations of the same list, and on a total, transitive,
antisymmetric order such a list is unique. -/
theorem pySorted_perm_invariant {l1 l2 : List String} (h : l1.Perm l2) :
    pySorted l1 = pySorted l2 :=
  List.eq_of_perm_of_sorted
    ((List.perm_insertionSort pyLe l1).trans (h.trans (List.perm_insertionSort pyLe l2).symm))
    (List.sorted_insertionSort pyLe l1) (List.sorted_insertionSort pyLe l2)

/-! ## Store lemmas -/

namespace CertsStore

theorem get_nil (name : String) : get [] name = none := rfl

/-- Looking up `name` among rows left by a `replace` of `name`: the deleted
rows are gone and the appended new row matches. -/
theorem get_filter_append_self (st : List CertRecord) (name : String) (rec : CertRecord)
    (hrec : rec.name = name) :
    get (st.filter (fun r => r.name ≠ name) ++ [rec]) name = some rec := by
  induction st with
  | nil => simp [get, hrec]
  | cons r st ih =>
    by_cases h : r.name = name
    · rw [List.filter_cons_of_neg (by simp [h])]
      exact ih
    · rw [List.filter_cons_of_pos (by simp [h]), List.cons_append]
      rw [get, if_neg h]
      exact ih

/-- Looking up a different key among rows left by a `replace`: unchanged. -/
theorem get_filter_append_ne (st : List CertRecord) (name n2 : String) (rec : CertRecord)
    (h : n2 ≠ name) (hrec : rec.name = name) :
    get (st.filter (fun r => r.name ≠ name) ++ [rec]) n2 = get st n2 := by
  induction st with
  | nil => simp [get, hrec, Ne.symm h]
  | cons r st ih =>
    by_cases hr : r.name = name
    · rw [List.filter_cons_of_neg (by simp [hr])]
      rw [get, if_neg (by rw [hr]; exact Ne.symm h)]
      exact ih
    · rw [List.filter_cons_of_pos (by simp [hr]), List.cons_append]
      by_cases hn : r.name = n2
      · rw [get, if_pos hn, get, if_pos hn]
      · rw [get, if_neg hn, get, if_neg hn]
        exact ih

/-- After `replace`, looking up the replaced primary key finds exactly the new
row (the old row with that key was deleted, and the new row sits last). -/
theorem get_replace_self (st : CertsStore) (name provider : String) (domains : List String)
    (expiry : String) :
    get (replace st name provider domains expiry) name =
      some ⟨name, provider, domains, expiry, checksum_of domains⟩ :=
  get_filter_append_self st name _ rfl

/-- `replace` does not affect lookups of other primary keys. -/
theorem get_replace_ne (st : CertsStore) (name provider : String) (domains : List String)
    (expiry : String) (n2 : String) (h : n2 ≠ name) :
    get (replace st name provider domains expiry) n2 = get st n2 :=
  get_filter_append_ne st name n2 _ h rfl

theorem check_eq_hit_iff (st : CertsStore) (n : String) (ds : List String) :
    check st n ds = CACHE_HIT ↔
      ∃ r, get st n = some r ∧ r.checksum = checksum_of ds := by
  unfold check
  cases hg : get st n with
  | none => simp [CACHE_MISS, CACHE_HIT]
  | some r =>
    by_cases hc : r.checksum = checksum_of ds <;>
      simp [hc, CACHE_HIT, CACHE_MISS]

theorem check_eq_miss_of_get_none (st : CertsStore) (n : String) (ds : List String)
    (h : get st n = none) : check st n ds = CACHE_MISS := by
  unfold check
  rw [h]

/-- A row surviving `remove` was already present and, when primary keys are
pairwise distinct, does not carry the removed key. -/
theorem mem_remove (st : CertsStore) (n : String)
    (hnd : (st.map CertRecord.name).Nodup) {r : CertRecord} (hr : r ∈ remove st n) :
    r ∈ st ∧ r.name ≠ n := by
  induction st with
  | nil => cases hr
  | cons c st ih =>
    simp only [List.map_cons, List.nodup_cons] at hnd
    rw [remove] at hr
    by_cases hc : c.name = n
    · rw [if_pos hc] at hr
      refine ⟨List.mem_cons_of_mem _ hr, fun hrn => hnd.1 ?_⟩
      rw [hc, ← hrn]
      exact List.mem_map_of_mem CertRecord.name hr
    · rw [if_neg hc] at hr
      rcases List.mem_cons.mp hr with rfl | hr2
      · exact ⟨List.mem_cons_self _ _, hc⟩
      · obtain ⟨h1, h2⟩ := ih hnd.2 hr2
        exact ⟨List.mem_cons_of_mem _ h1, h2⟩

theorem remove_sublist (st : CertsStore) (n : String) :
    List.Sublist (remove st n) st := by
  induction st with
  | nil => exact List.Sublist.refl _
  | cons c st ih =>
    rw [remove]
    by_cases hc : c.name = n
    · rw [if_pos hc]
      exact List.sublist_cons_self c st
    · rw [if_neg hc]
      exact ih.cons₂ c

theorem nodup_names_remove (st : CertsStore) (n : String)
    (h : (st.map CertRecord.name).Nodup) : ((remove st n).map CertRecord.name).Nodup :=
  h.sublist ((remove_sublist st n).map CertRecord.name)

theorem nodup_names_replace (st : CertsStore) (name provider : String)
    (domains : List String) (expiry : String) (h : (st.map CertRecord.name).Nodup) :
    ((replace st name provider domains expiry).map CertRecord.name).Nodup := by
  unfold replace
  rw [List.map_append, List.nodup_append]
  refine ⟨h.sublist ((List.filter_sublist st).map CertRecord.name), by simp, ?_⟩
  intro a ha
  simp only [List.mem_map, List.mem_filter] at ha
  obtain ⟨r, ⟨_, hrn⟩, rfl⟩ := ha
  have : r.name ≠ name := by simpa using hrn
  simpa using this

end CertsStore

/-! ## Reconciliation lemmas (towards idempotence) -/

theorem lookup?_isSome_iff {α : Type} (l : List (String × α)) (k : String) :
    (lookup? l k).isSome ↔ k ∈ l.map Prod.fst := by
  induction l with
  | nil => simp [lookup?]
  | cons p rest ih =>
    by_cases h : p.1 = k
    · simp [lookup?, h]
    · simp [lookup?, h, ih, Ne.symm h]

/-- `check` only ever returns the two cache constants. -/
theorem CertsStore.check_eq_hit_or_miss (st : CertsStore) (n : String) (ds : List String) :
    check st n ds = CACHE_HIT ∨ check st n ds = CACHE_MISS := by
  unfold check
  cases get st n with
  | none => exact Or.inr rfl
  | some r =>
    dsimp only
    split
    · exact Or.inl rfl
    · exact Or.inr rfl

/-- A row of a store after `replace` is either an old row or carries the
replaced name. -/
theorem CertsStore.mem_replace {st : CertsStore} {name provider : String}
    {domains : List String} {expiry : String} {r : CertRecord}
    (hr : r ∈ replace st name provider domains expiry) : r ∈ st ∨ r.name = name := by
  unfold replace at hr
  rcases List.mem_append.mp hr with h | h
  · exact Or.inl (List.mem_filter.mp h).1
  · rw [List.mem_singleton] at h
    subst h
    exact Or.inr rfl

namespace UsCertManager

/-- The prune loop does nothing when every snapshot record is still
configured. -/
theorem pruneLoop_noop (m : Manager) :
    ∀ (snap : List CertRecord) (acc : CertsStore × List Event),
    (∀ c ∈ snap, (lookup? m.config c.name).isSome) → pruneLoop m snap acc = acc := by
  intro snap
  induction snap with
  | nil => intro acc _; rfl
  | cons c rest ih =>
    intro acc h
    rw [pruneLoop, pruneStep, if_pos (h c (List.mem_cons_self c rest))]
    exact ih acc fun d hd => h d (List.mem_cons_of_mem c hd)

/-- The generation loop does nothing when every configured group checks out
fresh against the accumulated store. -/
theorem syncLoop_noop (m : Manager) (now : Nat) :
    ∀ (cfgl : List (String × GroupConfig)) (acc : CertsStore × List Event),
    (∀ nc ∈ cfgl, CertsStore.check acc.1 nc.1 nc.2.domains = CertsStore.CACHE_HIT) →
    syncLoop m now cfgl acc = acc := by
  intro cfgl
  induction cfgl with
  | nil => intro acc _; rfl
  | cons nc rest ih =>
    intro acc h
    have hh := h nc (List.mem_cons_self nc rest)
    rw [syncLoop, syncStep, if_neg (by rw [hh]; decide)]
    exact ih acc fun d hd => h d (List.mem_cons_of_mem nc hd)

/-- The generation loop leaves lookups of unconfigured names untouched,
whatever the providers do. -/
theorem get_syncLoop_of_not_mem (m : Manager) (now : Nat) :
    ∀ (cfgl : List (String × GroupConfig)) (st : CertsStore) (ev : List Event) (n : String),
    n ∉ cfgl.map Prod.fst →
    CertsStore.get (syncLoop m now cfgl (st, ev)).1 n = CertsStore.get st n := by
  intro cfgl
  induction cfgl with
  | nil => intro st ev n _; rfl
  | cons nc rest ih =>
    intro st ev n hn
    simp only [List.map_cons, List.mem_cons, not_or] at hn
    rw [syncLoop, syncStep]
    by_cases hchk : CertsStore.check st nc.1 nc.2.domains = CertsStore.CACHE_MISS
    · rw [if_pos hchk]
      cases hlk : lookup? m.cert_providers nc.2.provider with
      | none =>
        simp only [generate_cert, hlk]
        exact ih _ _ n (by simpa using hn.2)
      | some prov =>
        cases hgen : prov.generate_cert nc.1 nc.2 with
        | error e =>
          simp only [generate_cert, hlk, hgen]
          exact ih _ _ n (by simpa using hn.2)
        | ok lt =>
          simp only [generate_cert, hlk, hgen]
          refine (ih _ _ n (by simpa using hn.2)).trans ?_
          exact CertsStore.get_replace_ne st nc.1 nc.2.provider nc.2.domains _ n hn.1
    · rw [if_neg hchk]
      exact ih st ev n (by simpa using hn.2)

end UsCertManager

namespace UsCertManager

/-- Rows surviving the prune loop — when every revoke the loop needs
succeeds and the store's primary keys are distinct — are pre-existing rows
that are either still configured or were absent from the pruning snapshot. -/
theorem pruneLoop_mem (m : Manager) :
    ∀ (snap : List CertRecord) (st : CertsStore) (ev : List Event),
    (st.map CertRecord.name).Nodup →
    (∀ c ∈ snap, lookup? m.config c.name = none →
      ∃ prov, lookup? m.cert_providers c.provider = some prov ∧
        prov.revoke_cert c.name = .ok ()) →
    ∀ r ∈ (pruneLoop m snap (st, ev)).1,
      r ∈ st ∧ ((lookup? m.config r.name).isSome ∨ r.name ∉ snap.map CertRecord.name) := by
  intro snap
  induction snap with
  | nil =>
    intro st ev _ _ r hr
    exact ⟨hr, Or.inr (by simp)⟩
  | cons c rest ih =>
    intro st ev hnd hrev r hr
    rw [pruneLoop] at hr
    by_cases hcs : (lookup? m.config c.name).isSome
    · rw [pruneStep, if_pos hcs] at hr
      obtain ⟨h1, h2⟩ := ih st ev hnd (fun d hd hn => hrev d (List.mem_cons_of_mem c hd) hn) r hr
      refine ⟨h1, ?_⟩
      rcases h2 with h2 | h2
      · exact Or.inl h2
      · by_cases he : r.name = c.name
        · exact Or.inl (he ▸ hcs)
        · exact Or.inr (by simp [he, h2])
    · have hnone : lookup? m.config c.name = none := Option.not_isSome_iff_eq_none.mp hcs
      obtain ⟨prov, hlk, hrv⟩ := hrev c (List.mem_cons_self c rest) hnone
      rw [pruneStep, if_neg hcs] at hr
      simp only [revoke_cert, hlk, hrv] at hr
      obtain ⟨h1, h2⟩ := ih (CertsStore.remove st c.name) _
        (CertsStore.nodup_names_remove st c.name hnd)
        (fun d hd hn => hrev d (List.mem_cons_of_mem c hd) hn) r hr
      obtain ⟨h3, h4⟩ := CertsStore.mem_remove st c.name hnd h1
      refine ⟨h3, ?_⟩
      rcases h2 with h2 | h2
      · exact Or.inl h2
      · exact Or.inr (by simp [h4, h2])

/-- After the generation loop — configured names distinct, every generate
succeeding — every configured group resolves to a record carrying the
fingerprint of its configured domains, and every surviving row is an old row
or carries a configured name. -/
theorem syncLoop_post (m : Manager) (now : Nat) :
    ∀ (cfgl : List (String × GroupConfig)) (st : CertsStore) (ev : List Event),
    (cfgl.map Prod.fst).Nodup →
    (∀ nc ∈ cfgl, ∃ prov lt, lookup? m.cert_providers nc.2.provider = some prov ∧
      prov.generate_cert nc.1 nc.2 = .ok lt) →
    (∀ nc ∈ cfgl, ∃ r, CertsStore.get (syncLoop m now cfgl (st, ev)).1 nc.1 = some r ∧
      r.checksum = CertsStore.checksum_of nc.2.domains) ∧
    (∀ r ∈ (syncLoop m now cfgl (st, ev)).1, r ∈ st ∨ r.name ∈ cfgl.map Prod.fst) := by
  intro cfgl
  induction cfgl with
  | nil =>
    intro st ev _ _
    exact ⟨fun nc h => absurd h (List.not_mem_nil nc), fun r hr => Or.inl hr⟩
  | cons nc rest ih =>
    intro st ev hnd hgen
    simp only [List.map_cons, List.nodup_cons] at hnd
    rw [syncLoop]
    by_cases hchk : CertsStore.check st nc.1 nc.2.domains = CertsStore.CACHE_MISS
    · obtain ⟨prov, lt, hlk, hg⟩ := hgen nc (List.mem_cons_self nc rest)
      rw [syncStep]
      dsimp only
      rw [if_pos hchk]
      simp only [generate_cert, hlk, hg]
      obtain ⟨ihA, ihB⟩ := ih
        (CertsStore.replace st nc.1 nc.2.provider nc.2.domains
          (Python.isoformat (now + lt * microsPerDay))) _
        hnd.2 (fun d hd => hgen d (List.mem_cons_of_mem nc hd))
      constructor
      · intro d hd
        rcases List.mem_cons.mp hd with rfl | hd2
        · refine ⟨⟨d.1, d.2.provider, d.2.domains,
            Python.isoformat (now + lt * microsPerDay),
            CertsStore.checksum_of d.2.domains⟩, ?_, rfl⟩
          rw [get_syncLoop_of_not_mem m now rest _ _ d.1 (by simpa using hnd.1)]
          exact CertsStore.get_replace_self st d.1 d.2.provider d.2.domains _
        · exact ihA d hd2
      · intro r hr
        rcases ihB r hr with h | h
        · rcases CertsStore.mem_replace h with h2 | h2
          · exact Or.inl h2
          · exact Or.inr (by simp [h2])
        · exact Or.inr (by simp [h])
    · have hhit : CertsStore.check st nc.1 nc.2.domains = CertsStore.CACHE_HIT :=
        (CertsStore.check_eq_hit_or_miss st nc.1 nc.2.domains).resolve_right hchk
      rw [syncStep]
      dsimp only
      rw [if_neg hchk]
      obtain ⟨ihA, ihB⟩ := ih st ev hnd.2 (fun d hd => hgen d (List.mem_cons_of_mem nc hd))
      constructor
      · intro d hd
        rcases List.mem_cons.mp hd with rfl | hd2
        · obtain ⟨r, hget, hcs⟩ := (CertsStore.check_eq_hit_iff st d.1 d.2.domains).mp hhit
          refine ⟨r, ?_, hcs⟩
          rw [get_syncLoop_of_not_mem m now rest st ev d.1 (by simpa using hnd.1)]
          exact hget
        · exact ihA d hd2
      · exact fun r hr => (ihB r hr).imp id fun h => by simp [h]

end UsCertManager

/-! ## Claims -/

set_option maxRecDepth 200000

/-- **C1** (counterexample): the claim says the freshness check distinguishes
three outcomes, returning a dedicated `Stale` outcome when a record exists
whose stored fingerprint differs from the queried one, distinct from the
`Missing` outcome for an absent record.  In the code, after a put of
`["a"]`, a check with `["b"]` hits a record whose fingerprint differs
(`get` is `some`, the checksums differ), yet `check` returns exactly the same
value (`"MISS"`) it returns on a store with no record at all: the stale and
missing outcomes are not distinguished. -/
theorem c1_stale_not_distinguished_from_missing :
    (CertsStore.get (CertsStore.replace [] "web" "openssl" ["a"] "E") "web").isSome = true ∧
    CertsStore.checksum_of ["a"] ≠ CertsStore.checksum_of ["b"] ∧
    CertsStore.check (CertsStore.replace [] "web" "openssl" ["a"] "E") "web" ["b"] =
      CertsStore.check [] "web" ["b"] := by
  refine ⟨rfl, by decide, ?_⟩
  rw [CertsStore.check_eq_miss_of_get_none [] "web" ["b"] rfl]
  unfold CertsStore.check
  rw [CertsStore.get_replace_self]
  simp only
  rw [if_neg (by decide)]

/-- **C1** (amended): `check` distinguishes only two outcomes — it returns
`CACHE_MISS` both when no record exists for the name and when the stored
fingerprint differs from the fingerprint of the given domains, and
`CACHE_HIT` when they match.  In particular it returns `CACHE_HIT`
immediately after `replace` with the same domain list, `CACHE_MISS` after a
`replace` with a domain list of a different fingerprint, and `CACHE_MISS`
when no record was ever stored. -/
theorem c1_check_freshness :
    (∀ (name : String) (domains : List String),
      CertsStore.check [] name domains = CertsStore.CACHE_MISS) ∧
    (∀ (st : CertsStore) (name provider : String) (domains : List String) (expiry : String),
      CertsStore.check (CertsStore.replace st name provider domains expiry) name domains =
        CertsStore.CACHE_HIT) ∧
    (∀ (st : CertsStore) (name provider : String) (domains : List String) (expiry : String)
      (domains2 : List String),
      CertsStore.checksum_of domains ≠ CertsStore.checksum_of domains2 →
      CertsStore.check (CertsStore.replace st name provider domains expiry) name domains2 =
        CertsStore.CACHE_MISS) := by
  refine ⟨fun _ _ => rfl, fun st name provider domains expiry => ?_, ?_⟩
  · unfold CertsStore.check
    rw [CertsStore.get_replace_self]
    simp
  · intro st name provider domains expiry domains2 hne
    unfold CertsStore.check
    rw [CertsStore.get_replace_self]
    simp only
    rw [if_neg hne]

/-- **C1** (witness): the third conjunct of `c1_check_freshness` applied to a
concrete store, with its fingerprint-difference hypothesis discharged by
computation. -/
theorem c1_check_freshness_witness :
    CertsStore.checksum_of ["a"] ≠ CertsStore.checksum_of ["b"] ∧
    CertsStore.check (CertsStore.replace [] "web" "openssl" ["a"] "E") "web" ["b"] =
      CertsStore.CACHE_MISS :=
  ⟨by decide, c1_check_freshness.2.2 [] "web" "openssl" ["a"] "E" ["b"] (by decide)⟩

/-- **C4**: the fingerprint is permutation invariant — sorting cancels the
input order, so any permutation of the domain list yields the same digest,
and a `replace` followed by a `check` with a permuted domain list reports
`CACHE_HIT`. -/
theorem c4_fingerprint_permutation_invariant :
    ∀ (ds1 ds2 : List String), ds1.Perm ds2 →
      CertsStore.checksum_of ds1 = CertsStore.checksum_of ds2 ∧
      ∀ (st : CertsStore) (name provider expiry : String),
        CertsStore.check (CertsStore.replace st name provider ds1 expiry) name ds2 =
          CertsStore.CACHE_HIT := by
  intro ds1 ds2 h
  have hc : CertsStore.checksum_of ds1 = CertsStore.checksum_of ds2 := by
    unfold CertsStore.checksum_of
    rw [pySorted_perm_invariant h]
  refine ⟨hc, fun st name provider expiry => ?_⟩
  unfold CertsStore.check
  rw [CertsStore.get_replace_self]
  simp only
  rw [if_pos hc]

/-- **C4** (witness): `c4_fingerprint_permutation_invariant` applied to the
permutation `["b", "a"] ~ ["a", "b"]`. -/
theorem c4_fingerprint_permutation_invariant_witness :
    (["b", "a"] : List String).Perm ["a", "b"] ∧
    CertsStore.check (CertsStore.replace [] "web" "openssl" ["b", "a"] "E") "web" ["a", "b"] =
      CertsStore.CACHE_HIT :=
  ⟨by decide,
    (c4_fingerprint_permutation_invariant ["b", "a"] ["a", "b"] (by decide)).2
      [] "web" "openssl" "E"⟩

/-- **C7**: the fingerprint concatenates the sorted domains with no
separator, so the distinct domain lists `["ab", "c"]` and `["a", "bc"]`
collide (both concatenate to `"abc"`), and after a put of the first list a
freshness check with the second, different list reports `CACHE_HIT` (fresh)
rather than stale. -/
theorem c7_fingerprint_collision :
    (["ab", "c"] : List String) ≠ ["a", "bc"] ∧
    CertsStore.checksum_of ["ab", "c"] = CertsStore.checksum_of ["a", "bc"] ∧
    CertsStore.check (CertsStore.replace [] "web" "openssl" ["ab", "c"] "E") "web" ["a", "bc"] =
      CertsStore.CACHE_HIT := by
  have hc : CertsStore.checksum_of ["ab", "c"] = CertsStore.checksum_of ["a", "bc"] := by
    unfold CertsStore.checksum_of
    rfl
  refine ⟨by decide, hc, ?_⟩
  unfold CertsStore.check
  rw [CertsStore.get_replace_self]
  simp only
  rw [if_pos hc]

/-- **C6** (code bug): `get_due_certs` compares the stored
`datetime.isoformat()` text (`T` separator) against SQLite's
`datetime("now", "+30 days")` text (space separator) lexicographically.
A record expiring at 1970-02-11 00:00:00, checked at 1970-01-12 12:00:00
with the 30-day window, expires strictly within the window
(`now + 30 days` is 1970-02-11 12:00:00), yet is not returned: on the shared
calendar-day prefix the comparison reaches `'T' > ' '` and the chronologically
earlier expiry string compares greater. -/
theorem c6_due_certs_misses_same_day_expiry :
    41 * microsPerDay < (11 * microsPerDay + 43200000000) + 30 * microsPerDay ∧
    Python.isoformat (41 * microsPerDay) = "1970-02-11T00:00:00" ∧
    Sqlite.datetimeStr ((11 * microsPerDay + 43200000000) + 30 * microsPerDay) =
      "1970-02-11 12:00:00" ∧
    CertsStore.get_due_certs
      [{ name := "web", provider := "openssl", domains := ["a"],
         expiry_date := Python.isoformat (41 * microsPerDay),
         checksum := CertsStore.checksum_of ["a"] }]
      30 (11 * microsPerDay + 43200000000) = [] := by
  refine ⟨by decide, by decide, by decide, ?_⟩
  unfold CertsStore.get_due_certs
  rw [List.filter_cons_of_neg (by decide), List.filter_nil]

/-- **C10** (counterexample): the claim says no renew pass runs between the
startup full-sync and the first daily trigger, but `_renew_certs_task` runs
`_renew_certs` at the top of its loop body, before computing and sleeping to
the first trigger: starting the task at 10:00 (microsecond reading
36000000000), a renew pass runs at 10:00 itself, strictly before the first
computed trigger (02:00 the next day, reading 93600000000). -/
theorem c10_renew_pass_before_first_trigger :
    UsCertManager.renew_pass_times 36000000000 0 = 36000000000 ∧
    UsCertManager.next_run 36000000000 = 93600000000 ∧
    (36000000000 : Nat) < 93600000000 := by
  refine ⟨rfl, by decide, by decide⟩

/-- **C10** (amended): the trigger computation matches the spec formula —
today's 02:00 when that instant has not yet passed, the same time tomorrow
otherwise — and the renew pass runs at each computed trigger; additionally
one renew pass runs immediately when the scheduler task starts (right after
the startup full-sync), before the first trigger. -/
theorem c10_scheduler_trigger_times :
    (∀ now : Nat, UsCertManager.next_run now = UsCertManager.spec_next_trigger now) ∧
    (∀ start : Nat, UsCertManager.renew_pass_times start 0 = start) ∧
    (∀ (start n : Nat), UsCertManager.renew_pass_times start (n + 1) =
      UsCertManager.next_run (UsCertManager.renew_pass_times start n)) := by
  refine ⟨fun now => ?_, fun _ => rfl, fun _ _ => rfl⟩
  unfold UsCertManager.next_run UsCertManager.spec_next_trigger
  simp only
  by_cases h : now / microsPerDay * microsPerDay + UsCertManager.microsAt0200 < now
  · rw [if_pos h, if_neg (by omega)]
  · rw [if_neg h, if_pos (by omega)]

/-- A manager whose config names a provider id absent from the provider
mapping. -/
def badProviderManager : Manager where
  cert_providers := [("openssl", okProv 365)]
  hooks := hooksOn
  pip := pipOk
  config := [("web", { provider := "certbot", domains := ["a"] })]

/-- **C8**: when any configured section names a provider id missing from the
provider mapping, `_config_check` raises `UsCertManagerConfigError` (either at
that section, or an earlier section's own config check already raised), and
the exception propagates out of `run`: the startup aborts with a config error
before `_ensure_packages` and before any sync or issuance activity — the
store is untouched and no provider, store or hook event happens. -/
theorem c8_unknown_provider_aborts (m : Manager) (now : Nat) (st : CertsStore) :
    (∃ nc ∈ m.config, lookup? m.cert_providers nc.2.provider = none) →
    ∃ e, UsCertManager.run_startup m now st = (st, [], .error e) := by
  intro hbad
  suffices h : ∃ e, UsCertManager.config_check m = .error e by
    obtain ⟨e, he⟩ := h
    refine ⟨e, ?_⟩
    unfold UsCertManager.run_startup
    rw [he]
  unfold UsCertManager.config_check
  revert hbad
  generalize m.config = l
  induction l with
  | nil => rintro ⟨nc, hmem, -⟩; cases hmem
  | cons hd tl ih =>
    rintro ⟨nc, hmem, hnone⟩
    obtain ⟨s, cfg⟩ := hd
    cases hl : lookup? m.cert_providers cfg.provider with
    | none => simp [UsCertManager.config_check_go, hl]
    | some prov =>
      cases hcc : prov.config_check cfg with
      | error e => exact ⟨e, by simp [UsCertManager.config_check_go, hl, hcc]⟩
      | ok _ =>
        rcases List.mem_cons.mp hmem with rfl | htl
        · exact absurd hnone (by simp [hl])
        · obtain ⟨e, he⟩ := ih ⟨nc, htl, hnone⟩
          exact ⟨e, by simp [UsCertManager.config_check_go, hl, hcc, he]⟩

/-- **C8** (witness): `c8_unknown_provider_aborts` on a concrete manager whose
single section names the unknown provider id `"certbot"`. -/
theorem c8_unknown_provider_aborts_witness :
    ∃ e, UsCertManager.run_startup badProviderManager 0 [] = ([], [], .error e) :=
  c8_unknown_provider_aborts badProviderManager 0 []
    ⟨("web", { provider := "certbot", domains := ["a"] }),
      List.mem_singleton_self _, rfl⟩

/-- **C9**: for each lifecycle action the store mutation precedes the hook
step, so a nonzero `run-parts` exit makes the action raise
`UsCertManagerError` while the `replace` / `update` / `remove` already
performed stays in place; and when no hook directory exists the hook step is
a no-op (`run-parts` is not spawned, nothing raised) and the action completes
normally. -/
theorem c9_hook_failure_is_hard_error_without_rollback :
    (∀ (m : Manager) (now : Nat) (st : CertsStore) (name provider : String)
        (prov : ProviderImpl) (lt : Nat) (config : GroupConfig),
      lookup? m.cert_providers provider = some prov →
      prov.generate_cert name config = .ok lt →
      m.hooks.hook_dir_exists "post_cert_gen" = true →
      (m.hooks.run_parts "post_cert_gen" name).1 ≠ 0 →
      (UsCertManager.generate_cert m now st name provider config).1 =
        CertsStore.replace st name provider config.domains
          (Python.isoformat (now + lt * microsPerDay)) ∧
      ∃ e, (UsCertManager.generate_cert m now st name provider config).2.2 = .error e) ∧
    (∀ (m : Manager) (now : Nat) (st : CertsStore) (name provider : String)
        (prov : ProviderImpl) (lt : Nat),
      lookup? m.cert_providers provider = some prov →
      prov.renew_cert name = .ok lt →
      m.hooks.hook_dir_exists "post_cert_gen" = true →
      (m.hooks.run_parts "post_cert_gen" name).1 ≠ 0 →
      (UsCertManager.renew_cert m now st name provider).1 =
        CertsStore.update st name (Python.isoformat (now + lt * microsPerDay)) ∧
      ∃ e, (UsCertManager.renew_cert m now st name provider).2.2 = .error e) ∧
    (∀ (m : Manager) (st : CertsStore) (name provider : String) (prov : ProviderImpl),
      lookup? m.cert_providers provider = some prov →
      prov.revoke_cert name = .ok () →
      m.hooks.hook_dir_exists "post_cert_revoke" = true →
      (m.hooks.run_parts "post_cert_revoke" name).1 ≠ 0 →
      (UsCertManager.revoke_cert m st name provider).1 = CertsStore.remove st name ∧
      ∃ e, (UsCertManager.revoke_cert m st name provider).2.2 = .error e) ∧
    (∀ (m : Manager) (hook name : String),
      m.hooks.hook_dir_exists hook = false →
      UsCertManager.run_hook m hook name = ([], .ok ())) ∧
    (∀ (m : Manager) (now : Nat) (st : CertsStore) (name provider : String)
        (prov : ProviderImpl) (lt : Nat) (config : GroupConfig),
      lookup? m.cert_providers provider = some prov →
      prov.generate_cert name config = .ok lt →
      m.hooks.hook_dir_exists "post_cert_gen" = false →
      (UsCertManager.generate_cert m now st name provider config).1 =
        CertsStore.replace st name provider config.domains
          (Python.isoformat (now + lt * microsPerDay)) ∧
      (UsCertManager.generate_cert m now st name provider config).2.2 = .ok ()) := by
  refine ⟨?_, ?_, ?_, ?_, ?_⟩
  · intro m now st name provider prov lt config hlk hgen hdir hrc
    constructor
    · simp [UsCertManager.generate_cert, hlk, hgen]
    · simp [UsCertManager.generate_cert, hlk, hgen, UsCertManager.run_hook, hdir, hrc]
  · intro m now st name provider prov lt hlk hren hdir hrc
    constructor
    · simp [UsCertManager.renew_cert, hlk, hren]
    · simp [UsCertManager.renew_cert, hlk, hren, UsCertManager.run_hook, hdir, hrc]
  · intro m st name provider prov hlk hrev hdir hrc
    constructor
    · simp [UsCertManager.revoke_cert, hlk, hrev]
    · simp [UsCertManager.revoke_cert, hlk, hrev, UsCertManager.run_hook, hdir, hrc]
  · intro m hook name hdir
    simp [UsCertManager.run_hook, hdir]
  · intro m now st name provider prov lt config hlk hgen hdir
    refine ⟨by simp [UsCertManager.generate_cert, hlk, hgen], ?_⟩
    simp [UsCertManager.generate_cert, hlk, hgen, UsCertManager.run_hook, hdir]

/-- A manager whose hook `run-parts` fails with exit 1. -/
def hookFailManager : Manager where
  cert_providers := [("openssl", okProv 365)]
  hooks := hooksFail
  pip := pipOk
  config := []

/-- **C9** (witness): the generate part of
`c9_hook_failure_is_hard_error_without_rollback` on a concrete manager whose
`run-parts` exits 1: the replace is kept and the action errors. -/
theorem c9_hook_failure_witness :
    (UsCertManager.generate_cert hookFailManager 0 [] "web" "openssl"
        { provider := "openssl", domains := ["a"] }).1 =
      CertsStore.replace [] "web" "openssl" ["a"]
        (Python.isoformat (0 + 365 * microsPerDay)) ∧
    ∃ e, (UsCertManager.generate_cert hookFailManager 0 [] "web" "openssl"
        { provider := "openssl", domains := ["a"] }).2.2 = .error e :=
  c9_hook_failure_is_hard_error_without_rollback.1 hookFailManager 0 [] "web" "openssl"
    (okProv 365) 365 { provider := "openssl", domains := ["a"] } rfl rfl rfl (by decide)

/-- **C2**: on the sync half of a full-sync pass — (a) a group whose
freshness check reports `CACHE_HIT` is skipped, touching neither the store
nor the event trace; (b) a group reporting `CACHE_MISS` is generated: the
provider's generate returns a lifetime in days, the store receives a full
`replace` of `(name, provider, domains, now + lifetime days)`, and the
`post_cert_gen` hook step runs exactly once for it; (c) from an empty store
and a one-group config, one pass leaves exactly that group's record with the
fingerprint of its domains, and exactly one `post_cert_gen` hook invocation;
(d) with config `{X, Y}` where X's generate raises and Y's succeeds, the
pass still completes with Y stored and X absent (`CACHE_MISS` on the next
check). -/
theorem c2_sync_generates_missing_and_skips_fresh :
    (∀ (m : Manager) (now : Nat) (st : CertsStore) (ev : List Event)
        (name : String) (config : GroupConfig),
      CertsStore.check st name config.domains = CertsStore.CACHE_HIT →
      UsCertManager.syncStep m now (st, ev) (name, config) = (st, ev)) ∧
    (∀ (m : Manager) (now : Nat) (st : CertsStore) (ev : List Event)
        (name : String) (config : GroupConfig) (prov : ProviderImpl) (lt : Nat),
      CertsStore.check st name config.domains = CertsStore.CACHE_MISS →
      lookup? m.cert_providers config.provider = some prov →
      prov.generate_cert name config = .ok lt →
      m.hooks.hook_dir_exists "post_cert_gen" = true →
      UsCertManager.syncStep m now (st, ev) (name, config) =
        (CertsStore.replace st name config.provider config.domains
            (Python.isoformat (now + lt * microsPerDay)),
         ev ++ [Event.providerGenerate name config.provider,
                Event.storeReplace name config.provider config.domains
                  (Python.isoformat (now + lt * microsPerDay)),
                Event.hookRun "post_cert_gen" name])) ∧
    (∀ (provs : List (String × ProviderImpl)) (hooks : HooksEnv) (pip : PipEnv)
        (now : Nat) (X : String) (cfg : GroupConfig) (prov : ProviderImpl) (lt : Nat),
      lookup? provs cfg.provider = some prov →
      prov.generate_cert X cfg = .ok lt →
      hooks.hook_dir_exists "post_cert_gen" = true →
      UsCertManager.sync_certs
          { cert_providers := provs, hooks := hooks, pip := pip, config := [(X, cfg)] }
          now [] =
        ([{ name := X, provider := cfg.provider, domains := cfg.domains,
            expiry_date := Python.isoformat (now + lt * microsPerDay),
            checksum := CertsStore.checksum_of cfg.domains }],
         [Event.providerGenerate X cfg.provider,
          Event.storeReplace X cfg.provider cfg.domains
            (Python.isoformat (now + lt * microsPerDay)),
          Event.hookRun "post_cert_gen" X])) ∧
    (∀ (provs : List (String × ProviderImpl)) (hooks : HooksEnv) (pip : PipEnv)
        (now : Nat) (X Y : String) (cfgX cfgY : GroupConfig)
        (provX provY : ProviderImpl) (lt : Nat) (e : String),
      X ≠ Y →
      lookup? provs cfgX.provider = some provX →
      provX.generate_cert X cfgX = .error e →
      lookup? provs cfgY.provider = some provY →
      provY.generate_cert Y cfgY = .ok lt →
      CertsStore.get (UsCertManager.sync_certs
          { cert_providers := provs, hooks := hooks, pip := pip,
            config := [(X, cfgX), (Y, cfgY)] } now []).1 Y =
        some { name := Y, provider := cfgY.provider, domains := cfgY.domains,
               expiry_date := Python.isoformat (now + lt * microsPerDay),
               checksum := CertsStore.checksum_of cfgY.domains } ∧
      CertsStore.get (UsCertManager.sync_certs
          { cert_providers := provs, hooks := hooks, pip := pip,
            config := [(X, cfgX), (Y, cfgY)] } now []).1 X = none ∧
      CertsStore.check (UsCertManager.sync_certs
          { cert_providers := provs, hooks := hooks, pip := pip,
            config := [(X, cfgX), (Y, cfgY)] } now []).1 X cfgX.domains =
        CertsStore.CACHE_MISS) := by
  refine ⟨?_, ?_, ?_, ?_⟩
  · intro m now st ev name config h
    simp [UsCertManager.syncStep, h, CertsStore.CACHE_HIT, CertsStore.CACHE_MISS]
  · intro m now st ev name config prov lt hchk hlk hgen hdir
    simp [UsCertManager.syncStep, hchk, UsCertManager.generate_cert, hlk, hgen,
      UsCertManager.run_hook, hdir]
    split <;> rfl
  · intro provs hooks pip now X cfg prov lt hlk hgen hdir
    simp [UsCertManager.sync_certs, CertsStore.get_all, UsCertManager.pruneLoop,
      UsCertManager.syncLoop, UsCertManager.syncStep, CertsStore.check, CertsStore.get,
      UsCertManager.generate_cert, hlk, hgen, UsCertManager.run_hook, hdir,
      CertsStore.replace]
    split <;> rfl
  · intro provs hooks pip now X Y cfgX cfgY provX provY lt e hXY hlkX hgenX hlkY hgenY
    have hsync : (UsCertManager.sync_certs
        { cert_providers := provs, hooks := hooks, pip := pip,
          config := [(X, cfgX), (Y, cfgY)] } now []).1 =
        [{ name := Y, provider := cfgY.provider, domains := cfgY.domains,
           expiry_date := Python.isoformat (now + lt * microsPerDay),
           checksum := CertsStore.checksum_of cfgY.domains }] := by
      simp [UsCertManager.sync_certs, CertsStore.get_all, UsCertManager.pruneLoop,
        UsCertManager.syncLoop, UsCertManager.syncStep, CertsStore.check, CertsStore.get,
        UsCertManager.generate_cert, hlkX, hgenX, hlkY, hgenY, UsCertManager.run_hook,
        CertsStore.replace]
    rw [hsync]
    refine ⟨?_, ?_, ?_⟩
    · simp [CertsStore.get]
    · simp [CertsStore.get, Ne.symm hXY]
    · apply CertsStore.check_eq_miss_of_get_none
      simp [CertsStore.get, Ne.symm hXY]

/-- **C2** (witness): the empty-store scenario of
`c2_sync_generates_missing_and_skips_fresh` on a concrete manager with a
single group `web -> openssl, [d1, d2]` and all externals succeeding. -/
theorem c2_sync_witness :
    UsCertManager.sync_certs
        { cert_providers := [("openssl", okProv 365)], hooks := hooksOn, pip := pipOk,
          config := [("web", { provider := "openssl", domains := ["d1", "d2"] })] }
        0 [] =
      ([{ name := "web", provider := "openssl", domains := ["d1", "d2"],
          expiry_date := Python.isoformat (0 + 365 * microsPerDay),
          checksum := CertsStore.checksum_of ["d1", "d2"] }],
       [Event.providerGenerate "web" "openssl",
        Event.storeReplace "web" "openssl" ["d1", "d2"]
          (Python.isoformat (0 + 365 * microsPerDay)),
        Event.hookRun "post_cert_gen" "web"]) :=
  c2_sync_generates_missing_and_skips_fresh.2.2.1 [("openssl", okProv 365)] hooksOn pipOk
    0 "web" { provider := "openssl", domains := ["d1", "d2"] } (okProv 365) 365
    rfl rfl rfl

/-- **C3**: the prune pass — (a) `_revoke_cert` performs, in order, the
provider's revoke, then `CertsStore.remove`, then the `post_cert_revoke`
hook; (b) a revoke failure is caught: the failing record stays in the store
for retry on the next pass while the remaining names are still processed;
(c) from store records `{A, B}` and config `{A}`, one failure-free full-sync
pass leaves the store containing only A's record, with exactly one
`post_cert_revoke` hook invocation, for B. -/
theorem c3_prune_revokes_unconfigured :
    (∀ (m : Manager) (st : CertsStore) (name provider : String) (prov : ProviderImpl),
      lookup? m.cert_providers provider = some prov →
      prov.revoke_cert name = .ok () →
      m.hooks.hook_dir_exists "post_cert_revoke" = true →
      (UsCertManager.revoke_cert m st name provider).1 = CertsStore.remove st name ∧
      (UsCertManager.revoke_cert m st name provider).2.1 =
        [Event.providerRevoke name provider, Event.storeRemove name,
         Event.hookRun "post_cert_revoke" name]) ∧
    (∀ (m : Manager) (recA recB : CertRecord) (provA provB : ProviderImpl) (e : String),
      recA.name ≠ recB.name →
      lookup? m.config recA.name = none →
      lookup? m.config recB.name = none →
      lookup? m.cert_providers recA.provider = some provA →
      provA.revoke_cert recA.name = .error e →
      lookup? m.cert_providers recB.provider = some provB →
      provB.revoke_cert recB.name = .ok () →
      m.hooks.hook_dir_exists "post_cert_revoke" = true →
      UsCertManager.pruneLoop m [recA, recB] ([recA, recB], []) =
        ([recA],
         [Event.providerRevoke recA.name recA.provider,
          Event.providerRevoke recB.name recB.provider, Event.storeRemove recB.name,
          Event.hookRun "post_cert_revoke" recB.name])) ∧
    (∀ (provs : List (String × ProviderImpl)) (hooks : HooksEnv) (pip : PipEnv)
        (now : Nat) (recA recB : CertRecord) (cfgA : GroupConfig) (provB : ProviderImpl),
      recA.name ≠ recB.name →
      recA.checksum = CertsStore.checksum_of cfgA.domains →
      lookup? provs recB.provider = some provB →
      provB.revoke_cert recB.name = .ok () →
      hooks.hook_dir_exists "post_cert_revoke" = true →
      UsCertManager.sync_certs
          { cert_providers := provs, hooks := hooks, pip := pip,
            config := [(recA.name, cfgA)] } now [recA, recB] =
        ([recA],
         [Event.providerRevoke recB.name recB.provider, Event.storeRemove recB.name,
          Event.hookRun "post_cert_revoke" recB.name])) := by
  refine ⟨?_, ?_, ?_⟩
  · intro m st name provider prov hlk hrev hdir
    constructor
    · simp [UsCertManager.revoke_cert, hlk, hrev]
    · simp [UsCertManager.revoke_cert, hlk, hrev, UsCertManager.run_hook, hdir]
      split <;> rfl
  · intro m recA recB provA provB e hAB hcfgA hcfgB hlkA hrevA hlkB hrevB hdir
    simp [UsCertManager.pruneLoop, UsCertManager.pruneStep, hcfgA, hcfgB,
      UsCertManager.revoke_cert, hlkA, hrevA, hlkB, hrevB, UsCertManager.run_hook, hdir,
      CertsStore.remove, hAB, Ne.symm hAB]
    split <;> rfl
  · intro provs hooks pip now recA recB cfgA provB hAB hchk hlkB hrevB hdir
    simp [UsCertManager.sync_certs, CertsStore.get_all, UsCertManager.pruneLoop,
      UsCertManager.pruneStep, lookup?, hAB, Ne.symm hAB, UsCertManager.revoke_cert,
      hlkB, hrevB, UsCertManager.run_hook, hdir, CertsStore.remove,
      UsCertManager.syncLoop, UsCertManager.syncStep, CertsStore.check, CertsStore.get,
      hchk, CertsStore.CACHE_HIT, CertsStore.CACHE_MISS]
    split <;> rfl

/-- **C3** (witness): the `{A, B}` versus `{A}` scenario of
`c3_prune_revokes_unconfigured` on concrete records and environments. -/
theorem c3_prune_witness :
    UsCertManager.sync_certs
        { cert_providers := [("openssl", okProv 365)], hooks := hooksOn, pip := pipOk,
          config := [("siteA", { provider := "openssl", domains := ["a"] })] }
        0
        [{ name := "siteA", provider := "openssl", domains := ["a"],
           expiry_date := "E1", checksum := CertsStore.checksum_of ["a"] },
         { name := "siteB", provider := "openssl", domains := ["b"],
           expiry_date := "E2", checksum := CertsStore.checksum_of ["b"] }] =
      ([{ name := "siteA", provider := "openssl", domains := ["a"],
          expiry_date := "E1", checksum := CertsStore.checksum_of ["a"] }],
       [Event.providerRevoke "siteB" "openssl", Event.storeRemove "siteB",
        Event.hookRun "post_cert_revoke" "siteB"]) :=
  c3_prune_revokes_unconfigured.2.2 [("openssl", okProv 365)] hooksOn pipOk 0
    { name := "siteA", provider := "openssl", domains := ["a"],
      expiry_date := "E1", checksum := CertsStore.checksum_of ["a"] }
    { name := "siteB", provider := "openssl", domains := ["b"],
      expiry_date := "E2", checksum := CertsStore.checksum_of ["b"] }
    { provider := "openssl", domains := ["a"] } (okProv 365)
    (by decide) rfl rfl rfl rfl

/-- **C5**: full-sync is idempotent — with unchanged config and no external
failures (config names distinct, store primary keys distinct, every
configured group's provider known with generate succeeding, every orphaned
record's provider known with revoke succeeding), the pass right after a
full-sync pass changes nothing: its prune loop skips every record, its
generation loop reports every group fresh, and it performs zero provider,
store or hook events, so no record pruned earlier reappears and nothing is
regenerated. -/
theorem c5_full_sync_idempotent (m : Manager) (now now2 : Nat) (st : CertsStore)
    (hcfg : (m.config.map Prod.fst).Nodup)
    (hst : (st.map CertRecord.name).Nodup)
    (hgen : ∀ nc ∈ m.config, ∃ prov lt,
      lookup? m.cert_providers nc.2.provider = some prov ∧
      prov.generate_cert nc.1 nc.2 = .ok lt)
    (hrev : ∀ r ∈ st, lookup? m.config r.name = none →
      ∃ prov, lookup? m.cert_providers r.provider = some prov ∧
        prov.revoke_cert r.name = .ok ()) :
    UsCertManager.sync_certs m now2 (UsCertManager.sync_certs m now st).1 =
      ((UsCertManager.sync_certs m now st).1, []) := by
  rcases hp : UsCertManager.pruneLoop m st (st, []) with ⟨pst, pev⟩
  have hprune := UsCertManager.pruneLoop_mem m st st [] hst hrev
  rw [hp] at hprune
  have hA1 : ∀ r ∈ pst, (lookup? m.config r.name).isSome := by
    intro r hr
    obtain ⟨h1, h2⟩ := hprune r hr
    rcases h2 with h2 | h2
    · exact h2
    · exact absurd (List.mem_map_of_mem CertRecord.name h1) h2
  rcases hs : UsCertManager.syncLoop m now m.config (pst, pev) with ⟨s1st, s1ev⟩
  have hs1 : UsCertManager.sync_certs m now st = (s1st, s1ev) := by
    show UsCertManager.syncLoop m now m.config (UsCertManager.pruneLoop m st (st, [])) = _
    rw [hp, hs]
  have hpost := UsCertManager.syncLoop_post m now m.config pst pev hcfg hgen
  rw [hs] at hpost
  have hA : ∀ r ∈ s1st, (lookup? m.config r.name).isSome := by
    intro r hr
    rcases hpost.2 r hr with h | h
    · exact hA1 r h
    · exact (lookup?_isSome_iff m.config r.name).mpr h
  have hB : ∀ nc ∈ m.config,
      CertsStore.check s1st nc.1 nc.2.domains = CertsStore.CACHE_HIT := by
    intro nc hnc
    exact (CertsStore.check_eq_hit_iff s1st nc.1 nc.2.domains).mpr (hpost.1 nc hnc)
  rw [hs1]
  show UsCertManager.syncLoop m now2 m.config (UsCertManager.pruneLoop m s1st (s1st, [])) = _
  rw [UsCertManager.pruneLoop_noop m s1st (s1st, []) hA,
    UsCertManager.syncLoop_noop m now2 m.config (s1st, []) hB]

/-- A concrete manager for the idempotence witness: one configured group and
one orphaned record to prune. -/
def idemManager : Manager where
  cert_providers := [("openssl", okProv 365)]
  hooks := hooksOn
  pip := pipOk
  config := [("web", { provider := "openssl", domains := ["a"] })]

/-- The orphaned record pruned in the idempotence witness. -/
def orphanRecord : CertRecord where
  name := "gone"
  provider := "openssl"
  domains := ["g"]
  expiry_date := "E"
  checksum := "X"

/-- **C5** (witness): `c5_full_sync_idempotent` on a concrete manager with
one configured group and a store holding one orphaned record. -/
theorem c5_full_sync_idempotent_witness :
    UsCertManager.sync_certs idemManager 7
        (UsCertManager.sync_certs idemManager 3 [orphanRecord]).1 =
      ((UsCertManager.sync_certs idemManager 3 [orphanRecord]).1, []) :=
  c5_full_sync_idempotent idemManager 3 7 [orphanRecord]
    (by decide) (by decide)
    (by
      intro nc h
      simp only [idemManager] at h
      rw [List.mem_singleton] at h
      subst h
      exact ⟨okProv 365, 365, rfl, rfl⟩)
    (by
      intro r h _
      rw [List.mem_singleton] at h
      subst h
      exact ⟨okProv 365, rfl, rfl⟩)

end UsCert
